import Mathlib

/-!
Verification of the `streamlit-toc` page-registry core (`src/app.py`).

Shallow embedding notes:
* `Page` mirrors the `Page` dataclass.  The `contents` field of the Python
  code has declared type `Union[ModuleType, Callable]`, but the dispatch in
  `load_page` inspects capabilities at run time (`isinstance(contents,
  Callable)` / `isinstance(contents, ModuleType)`) and an `if/elif` chain
  with no `else` leaves a third, unmatched possibility; we model the three
  run-time shapes as the inductive `Contents`.
* The viewer identity is read in `ToC.__init__` from
  `st.session_state.get('username')`; following the spec we treat it as an
  injected parameter `username` of registry construction.
* Python `sorted(..., key=lambda x: x.index)` is a stable sort by `index`;
  we embed it as `List.insertionSort` with the relation `pageLe`, which is
  also a stable sort (proved below as `filter_insertionSort_pageLe`).
* Side effects of `load_page` (the `st.title` call and content invocation)
  are modelled as an event trace; a raised Python exception (the
  `ValueError` of `list.index` on a missing title) is the `false` success
  flag, with the events already emitted before the raise kept in the trace.
-/

/-- Run-time shape of a page's `contents` value as inspected by
`load_page`: a directly invocable object, a module, or anything else
(the unmatched `if/elif` case). -/
inductive Contents where
  | callable : Contents
  | module : Contents
  | other : Contents
deriving DecidableEq, Repr

/-- The `Page` dataclass of `src/app.py`. -/
structure Page where
  uid : String
  title : String
  icon : String
  contents : Contents
  index : Int
  show_to : Option (List String)
deriving DecidableEq, Repr

/-- The filter predicate of `ToC.__init__`:
`x.show_to is None or st.session_state.get('username') in x.show_to`. -/
def visibleTo (username : String) (p : Page) : Bool :=
  match p.show_to with
  | none => true
  | some l => l.contains username

/-- Comparison used by `sorted(..., key=lambda x: x.index)`. -/
def pageLe (a b : Page) : Prop := a.index ≤ b.index

instance : DecidableRel pageLe := fun a b => inferInstanceAs (Decidable (a.index ≤ b.index))

instance : IsTotal Page pageLe := ⟨fun a b => le_total a.index b.index⟩

instance : IsTrans Page pageLe := ⟨fun _ _ _ h h' => le_trans h h'⟩

/-- The `ToC` class: it owns the filtered, sorted page list. -/
structure ToC where
  pages : List Page
deriving DecidableEq, Repr

/-- `ToC.__init__`: filter by visibility to the current username, then
stable-sort by `index`. -/
def ToC.init (username : String) (pages : List Page) : ToC :=
  ⟨List.insertionSort pageLe (pages.filter (visibleTo username))⟩

/-- Attribute names passed as the `by` string of `ToC.get_pages`; the
claims only exercise the string-valued attributes. -/
inductive Attr where
  | uid : Attr
  | title : Attr
  | icon : Attr
deriving DecidableEq, Repr

/-- Python `getattr(page, by)` restricted to the attributes used. -/
def Page.getattr (p : Page) (a : Attr) : String :=
  match a with
  | Attr.uid => p.uid
  | Attr.title => p.title
  | Attr.icon => p.icon

/-- `ToC.get_pages`: the ordered projection of one attribute. -/
def ToC.get_pages (toc : ToC) (a : Attr) : List String :=
  toc.pages.map (fun p => p.getattr a)

/-- `ToC._get_page_by_title`:
`self.pages[self.get_pages(by='title').index(title)]`.  Python
`list.index` raises `ValueError` when the title is absent; the fallible
lookup is embedded as `Option`. -/
def ToC.get_page_by_title (toc : ToC) (t : String) : Option Page :=
  match (toc.get_pages Attr.title).findIdx? (fun s => s == t) with
  | none => none
  | some i => toc.pages[i]?

/-- Observable side effects of `load_page`. -/
inductive Event where
  | emitTitle : String → Event
  | invokeCallable : String → Event
  | invokeModuleLoad : String → Event
deriving DecidableEq, Repr

/-- `ToC.load_page`: optionally emit the title heading, then resolve the
page by title and dispatch on the run-time shape of `contents`.  Returns
the emitted event trace and `true` when the call returns normally,
`false` when the title lookup raises; events already emitted before the
raise stay in the trace.  The invocation events carry the page `uid` and
stand for a zero-argument call of the contents, resp. of its `load`
entry point. -/
def ToC.load_page (toc : ToC) (t : String) (show_title : Bool) : List Event × Bool :=
  let pre : List Event := if show_title then [Event.emitTitle t] else []
  match toc.get_page_by_title t with
  | none => (pre, false)
  | some p =>
    match p.contents with
    | Contents.callable => (pre ++ [Event.invokeCallable p.uid], true)
    | Contents.module => (pre ++ [Event.invokeModuleLoad p.uid], true)
    | Contents.other => (pre, true)

/-- Where `display_toc` renders the menu widget. -/
inductive Container where
  | sidebar : Container
  | mainArea : Container
deriving DecidableEq, Repr

/-- Layout orientation passed to the menu widget. -/
inductive MenuOrientation where
  | vertical : MenuOrientation
  | horizontal : MenuOrientation
deriving DecidableEq, Repr

/-- The arguments of the single `st_menu` call made by `display_toc`,
together with the container it is rendered in. -/
structure MenuCall where
  menu_title : Option String
  options : List String
  orientation : MenuOrientation
  icons : List String
  container : Container
deriving DecidableEq, Repr

/-- `display_toc`: `context = st.sidebar if in_sidebar else nullcontext()`
and `orientation = 'vertical' if in_sidebar else 'horizontal'`, then one
`st_menu` call with the title and icon projections. -/
def display_toc (toc : ToC) (in_sidebar : Bool) (menu_title : Option String) : MenuCall :=
  { menu_title := menu_title
    options := toc.get_pages Attr.title
    orientation := if in_sidebar then MenuOrientation.vertical else MenuOrientation.horizontal
    icons := toc.get_pages Attr.icon
    container := if in_sidebar then Container.sidebar else Container.mainArea }

/-! ### Helper lemmas about the embedded operations -/

/-- The index-based title lookup of `_get_page_by_title` agrees with a
first-match search over the stored pages. -/
theorem lookup_eq_find (l : List Page) (t : String) :
    ToC.get_page_by_title ⟨l⟩ t = l.find? (fun p => p.title == t) := by
  induction l with
  | nil => rfl
  | cons p ps ih =>
    simp only [ToC.get_page_by_title, ToC.get_pages, List.map_cons, List.findIdx?_cons,
      Page.getattr, List.find?_cons] at ih ⊢
    by_cases h : p.title == t
    · simp [h]
    · simp only [h, Bool.false_eq_true, if_false, ite_false]
      cases hfi : (ps.map (fun q => q.title)).findIdx? (fun s => s == t) with
      | none => simpa [hfi] using ih
      | some i => simpa [hfi] using ih

/-- Membership in the constructed registry. -/
theorem mem_toc_init (username : String) (pages : List Page) (p : Page) :
    p ∈ (ToC.init username pages).pages ↔ p ∈ pages ∧ visibleTo username p = true := by
  unfold ToC.init
  rw [(List.perm_insertionSort pageLe _).mem_iff]
  simp [List.mem_filter]

/-- Inserting a page with another index does not disturb the equal-index
subsequence. -/
theorem filter_orderedInsert_of_ne (k : Int) (x : Page) (l : List Page) (hx : x.index ≠ k) :
    (l.orderedInsert pageLe x).filter (fun p => p.index == k)
      = l.filter (fun p => p.index == k) := by
  induction l with
  | nil => simp [List.orderedInsert, hx]
  | cons y ys ih =>
    simp only [List.orderedInsert]
    by_cases h : pageLe x y
    · rw [if_pos h]
      simp [List.filter_cons, hx]
    · rw [if_neg h]
      simp [List.filter_cons, ih]

/-- A page is ordered-inserted before every stored page of equal index. -/
theorem filter_orderedInsert_of_eq (k : Int) (x : Page) (l : List Page) (hx : x.index = k) :
    (l.orderedInsert pageLe x).filter (fun p => p.index == k)
      = x :: l.filter (fun p => p.index == k) := by
  induction l with
  | nil => simp [List.orderedInsert, hx]
  | cons y ys ih =>
    simp only [List.orderedInsert]
    by_cases h : pageLe x y
    · rw [if_pos h]
      simp [List.filter_cons, hx]
    · rw [if_neg h]
      have hy : ¬ y.index = k := by
        intro hk
        exact h (le_of_eq (hx ▸ hk ▸ rfl))
      simp [List.filter_cons, hy, ih]

/-- Stability of the embedded sort: the subsequence of pages with any
fixed index is unchanged by `insertionSort pageLe`. -/
theorem filter_insertionSort_pageLe (k : Int) (l : List Page) :
    (List.insertionSort pageLe l).filter (fun p => p.index == k)
      = l.filter (fun p => p.index == k) := by
  induction l with
  | nil => rfl
  | cons x xs ih =>
    simp only [List.insertionSort]
    by_cases hx : x.index = k
    · rw [filter_orderedInsert_of_eq k x _ hx, ih]
      simp [List.filter_cons, hx]
    · rw [filter_orderedInsert_of_ne k x _ hx, ih]
      simp [List.filter_cons, hx]

/-! ### Concrete pages used in examples, witnesses and counterexamples -/

/-- A page restricted to an empty whitelist. -/
def emptyShowPage : Page :=
  { uid := "p0", title := "T", icon := "i", contents := Contents.callable,
    index := 0, show_to := some [] }

/-- A page visible only to the username `admin`. -/
def adminOnlyPage : Page :=
  { uid := "secret", title := "Secret page", icon := "arrow-up-circle",
    contents := Contents.callable, index := 2, show_to := some ["admin"] }

/-- An unrestricted page. -/
def openPage : Page :=
  { uid := "page1", title := "Page 1", icon := "person-square",
    contents := Contents.callable, index := 0, show_to := none }

/-! ### Claim theorems -/

/-- C1 (corrected), counterexample: a page whose `show_to` is the empty
collection is NOT kept by the visibility filter — for the viewer `user`
the registry built from just that page is empty, because
`username in []` is false in Python for every username. -/
theorem empty_show_to_page_dropped :
    emptyShowPage ∉ (ToC.init "user" [emptyShowPage]).pages
    ∧ visibleTo "user" emptyShowPage = false := by
  decide

/-- C1 (amended): a page whose `show_to` is `None` is kept for every
viewer identity; a page with `show_to = some l` is kept iff the viewer
identity is a member of `l` — so `show_to = {a,b}` is kept iff the viewer
is `a` or `b`, and an empty `show_to` collection is kept for no viewer;
the registry's stored pages are exactly the input pages passing this
filter. -/
theorem toc_visibility_characterisation (username : String) (pages : List Page) (p : Page) :
    (p ∈ (ToC.init username pages).pages ↔ p ∈ pages ∧ visibleTo username p = true)
    ∧ (p.show_to = none → visibleTo username p = true)
    ∧ (∀ l : List String, p.show_to = some l → (visibleTo username p = true ↔ username ∈ l))
    ∧ (∀ a b : String, p.show_to = some [a, b] →
        (visibleTo username p = true ↔ username = a ∨ username = b)) := by
  refine ⟨mem_toc_init username pages p, ?_, ?_, ?_⟩
  · intro h
    simp [visibleTo, h]
  · intro l h
    simp [visibleTo, h]
  · intro a b h
    simp [visibleTo, h]

/-- C1 witness: the theorem instantiated for viewer `admin` and the
admin-only page with `show_to = ["admin"]`. -/
theorem toc_visibility_characterisation_witness :
    adminOnlyPage ∈ (ToC.init "admin" [adminOnlyPage]).pages
    ∧ visibleTo "admin" adminOnlyPage = true :=
  ⟨((toc_visibility_characterisation "admin" [adminOnlyPage] adminOnlyPage).1).mpr
      ⟨by decide, by decide⟩,
   ((toc_visibility_characterisation "admin" [adminOnlyPage] adminOnlyPage).2.2.1
      ["admin"] rfl).mpr (by decide)⟩

/-- C2: title lookup returns the first stored (visible, sorted) page
whose title matches, and when no stored page has the title the lookup
returns `none` (no default page) and `load_page` finishes with the
failure flag. -/
theorem title_lookup_first_match_or_not_found (toc : ToC) (t : String) (s : Bool) :
    toc.get_page_by_title t = toc.pages.find? (fun p => p.title == t)
    ∧ (toc.pages.find? (fun p => p.title == t) = none →
        toc.get_page_by_title t = none ∧ (toc.load_page t s).2 = false) := by
  have h := lookup_eq_find toc.pages t
  refine ⟨h, fun hn => ⟨h.trans hn, ?_⟩⟩
  simp [ToC.load_page, h.trans hn]

/-- C2 witness: on the empty registry the title `Page 1` is not found and
`load_page` fails. -/
theorem title_lookup_first_match_or_not_found_witness :
    ToC.get_page_by_title ⟨[]⟩ "Page 1" = none
    ∧ (ToC.load_page ⟨[]⟩ "Page 1" true).2 = false :=
  (title_lookup_first_match_or_not_found ⟨[]⟩ "Page 1" true).2 rfl

/-- Example page with index 0 (P0 of the round-trip scenario). -/
def examplePage0 : Page :=
  { uid := "e0", title := "A", icon := "ia", contents := Contents.callable,
    index := 0, show_to := none }

/-- Example page with index 2 (P1 of the round-trip scenario). -/
def examplePage1 : Page :=
  { uid := "e1", title := "B", icon := "ib", contents := Contents.callable,
    index := 2, show_to := none }

/-- Example page with index 1 (P2 of the round-trip scenario). -/
def examplePage2 : Page :=
  { uid := "e2", title := "C", icon := "ic", contents := Contents.callable,
    index := 1, show_to := none }

/-- C3: the constructed registry is sorted by non-decreasing `index`, the
sort is stable (for every index value, the equal-index pages appear
exactly as in the visibility-filtered input, which preserves the input
order), and the round-trip example `[P0(0), P1(2), P2(1)]` (all visible)
yields `[P0, P2, P1]`. -/
theorem toc_pages_sorted_stable (username : String) (pages : List Page) :
    List.Sorted pageLe (ToC.init username pages).pages
    ∧ (∀ k : Int, (ToC.init username pages).pages.filter (fun p => p.index == k)
        = (pages.filter (visibleTo username)).filter (fun p => p.index == k))
    ∧ (ToC.init username [examplePage0, examplePage1, examplePage2]).pages
        = [examplePage0, examplePage2, examplePage1] := by
  refine ⟨List.sorted_insertionSort pageLe _, fun k => filter_insertionSort_pageLe k _, ?_⟩
  rfl

/-- C4: when two pages share a title and exactly one of them is visible
to the current viewer, looking the title up in the registry returns the
visible page, whichever input order the two pages came in. -/
theorem lookup_returns_visible_duplicate (username t : String) (p q : Page)
    (hp : p.title = t) (hq : q.title = t)
    (hvp : visibleTo username p = true) (hvq : visibleTo username q = false) :
    (ToC.init username [p, q]).get_page_by_title t = some p
    ∧ (ToC.init username [q, p]).get_page_by_title t = some p := by
  have e1 : ToC.init username [p, q] = ⟨[p]⟩ := by
    simp [ToC.init, List.filter_cons, hvp, hvq, List.insertionSort, List.orderedInsert]
  have e2 : ToC.init username [q, p] = ⟨[p]⟩ := by
    simp [ToC.init, List.filter_cons, hvp, hvq, List.insertionSort, List.orderedInsert]
  constructor
  · rw [e1, lookup_eq_find]
    simp [List.find?_cons, hp]
  · rw [e2, lookup_eq_find]
    simp [List.find?_cons, hp]

/-- Duplicate-title page visible to everyone. -/
def dupVisiblePage : Page :=
  { uid := "v", title := "X", icon := "i1", contents := Contents.callable,
    index := 0, show_to := none }

/-- Duplicate-title page visible only to `admin`. -/
def dupHiddenPage : Page :=
  { uid := "h", title := "X", icon := "i2", contents := Contents.module,
    index := 0, show_to := some ["admin"] }

/-- C4 witness: viewer `user`, duplicate title `X`, both input orders. -/
theorem lookup_returns_visible_duplicate_witness :
    (ToC.init "user" [dupVisiblePage, dupHiddenPage]).get_page_by_title "X" = some dupVisiblePage
    ∧ (ToC.init "user" [dupHiddenPage, dupVisiblePage]).get_page_by_title "X"
        = some dupVisiblePage :=
  lookup_returns_visible_duplicate "user" "X" dupVisiblePage dupHiddenPage
    rfl rfl (by decide) (by decide)

/-- C5: for a page resolved by `load_page`, a directly invocable
`contents` is called with no arguments, and a module `contents` has its
zero-argument `load` entry point invoked; in both cases the call returns
normally with the invocation as the final event. -/
theorem load_page_dispatch_contract (toc : ToC) (t : String) (s : Bool) (p : Page)
    (hfind : toc.get_page_by_title t = some p) :
    (p.contents = Contents.callable →
      toc.load_page t s
        = ((if s then [Event.emitTitle t] else []) ++ [Event.invokeCallable p.uid], true))
    ∧ (p.contents = Contents.module →
      toc.load_page t s
        = ((if s then [Event.emitTitle t] else []) ++ [Event.invokeModuleLoad p.uid], true)) := by
  constructor <;> intro hc <;> simp [ToC.load_page, hfind, hc]

/-- C5 witness: loading `Page 1` from a registry holding the callable
page `openPage` invokes its contents directly. -/
theorem load_page_dispatch_contract_witness :
    ToC.load_page ⟨[openPage]⟩ "Page 1" false = ([Event.invokeCallable "page1"], true) := by
  have h := (load_page_dispatch_contract ⟨[openPage]⟩ "Page 1" false openPage (by decide)).1 rfl
  simpa [openPage] using h

/-- C6: the title and icon projections have equal length and are in
lock-step — zipped together they are exactly the (title, icon) pairs of
the stored pages in the registry's canonical sorted order. -/
theorem get_pages_parallel_projection (toc : ToC) :
    (toc.get_pages Attr.title).length = (toc.get_pages Attr.icon).length
    ∧ (toc.get_pages Attr.title).zip (toc.get_pages Attr.icon)
        = toc.pages.map (fun p => (p.title, p.icon)) := by
  constructor
  · simp [ToC.get_pages]
  · simp [ToC.get_pages, List.zip_map', Page.getattr]

/-- C7: when no input page is visible to the viewer, registry
construction still succeeds (it is a total function here) and the stored
page list is empty. -/
theorem no_visible_pages_empty_registry (username : String) (pages : List Page)
    (h : ∀ p ∈ pages, visibleTo username p = false) :
    (ToC.init username pages).pages = [] := by
  have hf : pages.filter (visibleTo username) = [] :=
    List.filter_eq_nil_iff.mpr (by intro a ha; simp [h a ha])
  simp [ToC.init, hf, List.insertionSort]

/-- C7 witness: viewer `user` sees nothing in a registry built from the
admin-only page alone. -/
theorem no_visible_pages_empty_registry_witness :
    (ToC.init "user" [adminOnlyPage]).pages = [] :=
  no_visible_pages_empty_registry "user" [adminOnlyPage] (by decide)

/-- C8: the single placement flag couples container and orientation:
`in_sidebar = true` renders in the sidebar with vertical orientation,
`in_sidebar = false` renders in the main content area with horizontal
orientation, and container and orientation always co-vary. -/
theorem display_toc_placement_coupling (toc : ToC) (mt : Option String) :
    (display_toc toc true mt).container = Container.sidebar
    ∧ (display_toc toc true mt).orientation = MenuOrientation.vertical
    ∧ (display_toc toc false mt).container = Container.mainArea
    ∧ (display_toc toc false mt).orientation = MenuOrientation.horizontal
    ∧ ∀ b : Bool, ((display_toc toc b mt).container = Container.sidebar
        ↔ (display_toc toc b mt).orientation = MenuOrientation.vertical) := by
  refine ⟨rfl, rfl, rfl, rfl, fun b => ?_⟩
  cases b <;> simp [display_toc]

/-- C9: when the resolved page's `contents` is neither invocable nor a
module, the `if/elif` chain of `load_page` matches nothing: no content is
invoked and the call returns normally (success flag, no invocation
event). -/
theorem load_page_unmatched_contents_noop (toc : ToC) (t : String) (s : Bool) (p : Page)
    (hfind : toc.get_page_by_title t = some p) (hc : p.contents = Contents.other) :
    toc.load_page t s = ((if s then [Event.emitTitle t] else []), true) := by
  simp [ToC.load_page, hfind, hc]

/-- A page whose `contents` is neither invocable nor a module. -/
def oddContentsPage : Page :=
  { uid := "odd", title := "Odd", icon := "io", contents := Contents.other,
    index := 0, show_to := none }

/-- C9 witness: loading the odd-contents page emits nothing and
returns normally. -/
theorem load_page_unmatched_contents_noop_witness :
    ToC.load_page ⟨[oddContentsPage]⟩ "Odd" false = ([], true) := by
  have h := load_page_unmatched_contents_noop ⟨[oddContentsPage]⟩ "Odd" false
    oddContentsPage (by decide) rfl
  simpa using h

/-- C10: with `show_title = true` the heading event is always the first
element of the trace (emitted before the title is resolved), so when the
title is not found among the visible pages the heading has still been
emitted and the call then fails — the failure is not atomic with respect
to UI output. -/
theorem load_page_title_emitted_before_lookup (toc : ToC) (t : String) :
    (toc.load_page t true).1.head? = some (Event.emitTitle t)
    ∧ (toc.get_page_by_title t = none →
        toc.load_page t true = ([Event.emitTitle t], false)) := by
  constructor
  · cases hf : toc.get_page_by_title t with
    | none => simp [ToC.load_page, hf]
    | some p => cases hc : p.contents <;> simp [ToC.load_page, hf, hc]
  · intro h
    simp [ToC.load_page, h]

/-- C10 witness: on the empty registry, `load_page "Ghost" true` emits
the heading and then fails. -/
theorem load_page_title_emitted_before_lookup_witness :
    (ToC.load_page ⟨[]⟩ "Ghost" true).1.head? = some (Event.emitTitle "Ghost")
    ∧ ToC.load_page ⟨[]⟩ "Ghost" true = ([Event.emitTitle "Ghost"], false) :=
  ⟨(load_page_title_emitted_before_lookup ⟨[]⟩ "Ghost").1,
   (load_page_title_emitted_before_lookup ⟨[]⟩ "Ghost").2 rfl⟩
